import Mathlib

/-!
Shallow embedding of the NotePerfect v1.0 control-voltage quantizer
(`NotePerfect_CY8CKIT-059.cydsn/main.c`; the second firmware image shares the
identical core pipeline).  The embedding covers the compile-time constants, the
PWM lookup table, the 128-sample moving-average filter with slope-triggered
reset, the NotePerfect step quantizer, the correction detector and the
output-sink update logic of the main loop.

Machine-integer conventions used throughout:
* `int32` values are modeled as `ℤ`; 32-bit overflow is not modeled because all
  values flowing through the filter are 20-bit ADC codes (magnitude well below
  `2^31`) and the running sum of 128 of them stays below `2^27`.
* The assignment of `abs(averageCounts - result)` to the `int16` variable
  `diff` truncates to 16 bits; this truncation is reachable with 20-bit ADC
  codes and is modeled exactly by `toInt16`.
* The constants `NOTEPERFECT_STEP_SIZE_MV` and `CORRECTION_WINDOW` have
  unsigned type in C (they are built from `5u` and `12u`), so the quantizer's
  division/modulo and the correction comparison are evaluated in unsigned
  32-bit arithmetic after converting the signed `milliVolts`; this conversion
  is modeled exactly by `toUInt32` (value taken modulo `2^32 = 4294967296`).
-/

/-- MAX_SAMPLE from main.c: number of samples in the moving-average window. -/
def MAX_SAMPLE : ℕ := 128

/-- SIGNAL_SLOPE from main.c: threshold to reset the filter on a sharp change. -/
def SIGNAL_SLOPE : ℤ := 1000

/-- DIV from main.c: number of shifts for the sum/average of MAX_SAMPLE. -/
def DIV : ℕ := 7

/-- NUMBER_NOTES_PER_VOLT from main.c. -/
def NUMBER_NOTES_PER_VOLT : ℕ := 12

/-- MAX_CONTROL_VOLTAGE from main.c (volts). -/
def MAX_CONTROL_VOLTAGE : ℕ := 5

/-- NUMBER_NOTE_PERFECT_STEPS from main.c (60). -/
def NUMBER_NOTE_PERFECT_STEPS : ℕ := NUMBER_NOTES_PER_VOLT * MAX_CONTROL_VOLTAGE

/-- NOTEPERFECT_STEP_SIZE_MV from main.c: `(5 * 1000) / 60 = 83` millivolts,
an unsigned constant in C. -/
def NOTEPERFECT_STEP_SIZE_MV : ℕ := (MAX_CONTROL_VOLTAGE * 1000) / NUMBER_NOTE_PERFECT_STEPS

/-- CORRECTION_WINDOW from main.c: `NOTEPERFECT_STEP_SIZE_MV / 4 = 20`
millivolts, an unsigned constant in C. -/
def CORRECTION_WINDOW : ℕ := NOTEPERFECT_STEP_SIZE_MV / 4

/-- IN_B channel identifier from main.c. -/
def IN_B : ℕ := 0

/-- IN_A channel identifier from main.c. -/
def IN_A : ℕ := 1

/-- PWM_Lookup from main.c: the NotePerfect step number lookup table
(uint16_t values, 61 entries). -/
def PWM_Lookup : List ℕ :=
  [0, 83, 167, 250, 333, 417, 500, 583, 667, 750, 833, 917, 1000,
   1083, 1167, 1250, 1333, 1417, 1500, 1583, 1667, 1750, 1833, 1917, 2000,
   2083, 2167, 2250, 2333, 2417, 2500, 2583, 2667, 2750, 2833, 2917, 3000,
   3083, 3167, 3250, 3333, 3417, 3500, 3583, 3667, 3750, 3833, 3917, 4000,
   4083, 4167, 4250, 4333, 4417, 4500, 4583, 4667, 4750, 4833, 4917, 5000]

/-- Conversion of a mathematical integer to the value of the C `int16` holding
it: reduce modulo `2^16 = 65536` into `[-32768, 32767]`.  Models the narrowing
assignment `int16 diff = abs(...)` in main.c. -/
def toInt16 (x : ℤ) : ℤ := (x + 32768) % 65536 - 32768

/-- Conversion of a mathematical integer to the `uint32` value it converts to
in C: reduce modulo `2^32 = 4294967296`.  Models both the explicit
`(uint32_t) milliVolts` cast and the implicit signed-to-unsigned conversion in
`milliVolts / NOTEPERFECT_STEP_SIZE_MV` (the step-size constant is unsigned). -/
def toUInt32 (x : ℤ) : ℕ := (x % 4294967296).toNat

/-- Embeds the NotePerfect step computation of main.c lines 322-325.  Because
`NOTEPERFECT_STEP_SIZE_MV` is an unsigned constant, the usual arithmetic
conversions of C convert the signed `milliVolts` to unsigned 32-bit before the
division and the modulo; the round-up test compares the unsigned remainder with
`NOTEPERFECT_STEP_SIZE_MV / 2 = 41`.  The result is the `uint32` variable
`notePerfectValue` (the quantized step index, exact as a natural number since
it is at most `(2^32 - 1) / 83 + 1`). -/
def notePerfectValue (milliVolts : ℤ) : ℕ :=
  let mvU : ℕ := toUInt32 milliVolts
  let stepIndex : ℕ := mvU / NOTEPERFECT_STEP_SIZE_MV
  let remainder : ℕ := mvU % NOTEPERFECT_STEP_SIZE_MV
  if NOTEPERFECT_STEP_SIZE_MV / 2 ≤ remainder then stepIndex + 1 else stepIndex

/-- Embeds the correction test of main.c lines 366-367:
`(uint32_t) milliVolts > PWM_Lookup[idx] + CORRECTION_WINDOW ||
 (uint32_t) milliVolts < PWM_Lookup[idx] - CORRECTION_WINDOW`.
Both comparisons are unsigned 32-bit comparisons; in particular the lower
bound `PWM_Lookup[idx] - CORRECTION_WINDOW` is computed modulo `2^32`, which
wraps around when the table value is below the window. -/
def correctionActive (milliVolts : ℤ) (stepIndex : ℕ) : Bool :=
  let mvU : ℕ := toUInt32 milliVolts
  let rep : ℕ := PWM_Lookup.getD stepIndex 0
  decide ((rep + CORRECTION_WINDOW) % 4294967296 < mvU) ||
    decide (mvU < (rep + 4294967296 - CORRECTION_WINDOW) % 4294967296)

/-- Embeds the Blue-LED compare value chosen in main.c lines 369-371 when a
correction is active: the table value at the step index, limited to the value
at step 10. -/
def blueCompareValue (stepIndex : ℕ) : ℕ :=
  if 10 < stepIndex then PWM_Lookup.getD 10 0 else PWM_Lookup.getD stepIndex 0

/-- Correction indicator magnitude of main.c lines 366-380: the Blue-LED PWM
compare value when the correction test fires, and 0 (PWM reset and stopped)
otherwise. -/
def blueMagnitude (milliVolts : ℤ) (stepIndex : ℕ) : ℕ :=
  if correctionActive milliVolts stepIndex then blueCompareValue stepIndex else 0

/-- State of the 128-sample moving-average filter in main.c: the `adcCounts`
array, the running `sum`, the reported `averageCounts` and the write cursor
`index`. -/
structure FilterState where
  adcCounts : List ℤ
  sum : ℤ
  averageCounts : ℤ
  index : ℕ

/-- Filter initialization of main.c lines 179-188: fill the whole array with
the first sample, set `sum = result << DIV` (i.e. `result * 128`) and
`averageCounts = result`. -/
def initFilter (result : ℤ) : FilterState :=
  { adcCounts := List.replicate MAX_SAMPLE result
    sum := result * 128
    averageCounts := result
    index := 0 }

/-- One filter update of main.c lines 282-316.  `diff` is the absolute
difference truncated by the narrowing store into the `int16` variable; if it
exceeds SIGNAL_SLOPE the filter is refilled with the new sample, otherwise the
sliding-window update evicts the sample under the cursor, inserts the new one,
recomputes `averageCounts = sum >> DIV` (arithmetic shift, i.e. floor division
by 128) and advances the cursor modulo MAX_SAMPLE. -/
def filterTick (s : FilterState) (result : ℤ) : FilterState :=
  let diff : ℤ := toInt16 ((s.averageCounts - result).natAbs : ℤ)
  if SIGNAL_SLOPE < diff then
    { adcCounts := List.replicate MAX_SAMPLE result
      sum := result * 128
      averageCounts := result
      index := 0 }
  else
    let sum1 : ℤ := s.sum - s.adcCounts.getD s.index 0 + result
    { adcCounts := s.adcCounts.set s.index result
      sum := sum1
      averageCounts := Int.fdiv sum1 128
      index := if s.index + 1 = MAX_SAMPLE then 0 else s.index + 1 }

/-- Iterated filter updates: one `filterTick` per loop iteration of main.c. -/
def runFilter (s : FilterState) (samples : List ℤ) : FilterState :=
  samples.foldl filterTick s

/-- Unfolding lemma for `runFilter` on a nonempty sample list. -/
theorem runFilter_cons (s : FilterState) (a : ℤ) (t : List ℤ) :
    runFilter s (a :: t) = runFilter (filterTick s a) t := by
  simp [runFilter]

/-- Output-sink side of one loop iteration: the PWM compare register, the
front-panel LED compare registers, the LCD step/DAC/millivolt fields, the Blue
correction LED (compare value and running flag) and the remembered previous
step index. -/
structure OutputState where
  pwmCompare : ℕ
  redCompare : ℕ
  greenCompare : ℕ
  lcdDacDisplay : ℕ
  lcdStepDisplay : ℕ
  lcdMvDisplay : ℤ
  blueCompare : ℕ
  blueRunning : Bool
  previousNotePerfectValue : ℕ

/-- Nominal startup output state (all compare registers and displays cleared,
`previousNotePerfectValue = 0` as in the variable initializations of main.c). -/
def initOutput : OutputState :=
  { pwmCompare := 0
    redCompare := 0
    greenCompare := 0
    lcdDacDisplay := 0
    lcdStepDisplay := 0
    lcdMvDisplay := 0
    blueCompare := 0
    blueRunning := false
    previousNotePerfectValue := 0 }

/-- Output part of one loop iteration, main.c lines 327-380: when the step
index differs from the previously emitted one, update the main PWM compare,
the active channel's LED compare, the LCD DAC and step fields and remember the
new step index; unconditionally display the millivolt value and evaluate the
correction test (starting the Blue PWM with the capped compare value when it
fires, resetting and stopping it otherwise). -/
def outputTick (o : OutputState) (inputChannel : ℕ) (milliVolts : ℤ)
    (stepIndex : ℕ) : OutputState :=
  let o1 : OutputState :=
    if stepIndex ≠ o.previousNotePerfectValue then
      { o with
        pwmCompare := PWM_Lookup.getD stepIndex 0
        redCompare :=
          if inputChannel = IN_A then
            (if stepIndex = 0 then PWM_Lookup.getD 1 0 else PWM_Lookup.getD stepIndex 0)
          else o.redCompare
        greenCompare :=
          if inputChannel = IN_B then
            (if stepIndex = 0 then PWM_Lookup.getD 1 0 else PWM_Lookup.getD stepIndex 0)
          else o.greenCompare
        lcdDacDisplay := PWM_Lookup.getD stepIndex 0
        lcdStepDisplay := stepIndex
        previousNotePerfectValue := stepIndex }
    else o
  let o2 : OutputState := { o1 with lcdMvDisplay := milliVolts }
  if correctionActive milliVolts stepIndex then
    { o2 with blueCompare := blueCompareValue stepIndex, blueRunning := true }
  else
    { o2 with blueRunning := false }

/-- Sum of a list after a point update, in terms of the evicted element. -/
theorem sum_set_getD (l : List ℤ) (i : ℕ) (x : ℤ) (h : i < l.length) :
    (l.set i x).sum = l.sum - l.getD i 0 + x := by
  induction l generalizing i with
  | nil => simp at h
  | cons a t ih =>
    cases i with
    | zero => simp [List.set]; ring
    | succ n =>
      simp only [List.set, List.sum_cons, List.getD_cons_succ]
      rw [ih n (by simpa using h)]
      ring

/-- Element access in a replicated list. -/
theorem getD_replicate (r : ℤ) (n i : ℕ) (h : i < n) :
    (List.replicate n r).getD i 0 = r := by
  induction n generalizing i with
  | zero => omega
  | succ m ih =>
    cases i with
    | zero => simp [List.replicate]
    | succ j => simpa [List.replicate] using ih j (by omega)

/-- Unsigned conversion of a nonnegative 32-bit value is the identity. -/
theorem toUInt32_natCast (mv : ℕ) (h : mv < 4294967296) :
    toUInt32 (mv : ℤ) = mv := by
  unfold toUInt32
  omega

/-- Closed form of the quantizer on nonnegative 32-bit inputs. -/
theorem notePerfectValue_nat_eq (mv : ℕ) (h : mv < 4294967296) :
    notePerfectValue (mv : ℤ) = mv / 83 + (if 41 ≤ mv % 83 then 1 else 0) := by
  simp only [notePerfectValue, NOTEPERFECT_STEP_SIZE_MV, MAX_CONTROL_VOLTAGE,
    NUMBER_NOTE_PERFECT_STEPS, NUMBER_NOTES_PER_VOLT, toUInt32_natCast mv h]
  norm_num
  split <;> omega

/-- Closed form of the quantizer on an arbitrary signed input. -/
theorem notePerfectValue_eq (mv : ℤ) :
    notePerfectValue mv =
      toUInt32 mv / 83 + (if 41 ≤ toUInt32 mv % 83 then 1 else 0) := by
  simp only [notePerfectValue, NOTEPERFECT_STEP_SIZE_MV, MAX_CONTROL_VOLTAGE,
    NUMBER_NOTE_PERFECT_STEPS, NUMBER_NOTES_PER_VOLT]
  norm_num
  split <;> omega

/-- Representation invariant of the moving-average filter: the array has
MAX_SAMPLE entries, the cursor is in range, the maintained running sum equals
the sum of the array contents, and the reported average is the running sum
arithmetically shifted right by DIV (floor division by 128). -/
def FilterInv (s : FilterState) : Prop :=
  s.adcCounts.length = MAX_SAMPLE ∧ s.index < MAX_SAMPLE ∧
  s.sum = s.adcCounts.sum ∧ s.averageCounts = Int.fdiv s.sum 128

/-- Filter initialization establishes the invariant. -/
theorem filterInv_init (r : ℤ) : FilterInv (initFilter r) := by
  refine ⟨by simp [initFilter], by simp [initFilter, MAX_SAMPLE], ?_, ?_⟩
  · simp only [initFilter]
    rw [List.sum_replicate, nsmul_eq_mul]
    simp [MAX_SAMPLE]
    ring
  · simp only [initFilter]
    rw [Int.mul_fdiv_cancel _ (by norm_num)]

/-- One filter update preserves the invariant, in both branches. -/
theorem filterInv_tick (s : FilterState) (r : ℤ) (h : FilterInv s) :
    FilterInv (filterTick s r) := by
  obtain ⟨hlen, hidx, hsum, havg⟩ := h
  simp only [filterTick]
  split
  · exact filterInv_init r
  · refine ⟨by simpa using hlen, ?_, ?_, rfl⟩
    · show (if s.index + 1 = MAX_SAMPLE then 0 else s.index + 1) < MAX_SAMPLE
      split <;> omega
    · show _ - _ + _ = (s.adcCounts.set s.index r).sum
      rw [sum_set_getD s.adcCounts s.index r (by omega)]
      omega

/-- The invariant is preserved by any sequence of samples. -/
theorem filterInv_run (s : FilterState) (samples : List ℤ) (h : FilterInv s) :
    FilterInv (runFilter s samples) := by
  induction samples generalizing s with
  | nil => exact h
  | cons a t ih =>
    rw [runFilter_cons]
    exact ih _ (filterInv_tick s a h)

/-- C5: for every sequence of ticks starting from initialization, after each
filter update (both the slope-reset branch and the sliding-window branch) the
maintained running sum equals the sum of the 128 buffer contents recomputed
independently, and the reported average equals the running sum shifted right
by 7 (floor division by 128). -/
theorem filter_sum_invariant (r : ℤ) (samples : List ℤ) :
    (runFilter (initFilter r) samples).adcCounts.length = MAX_SAMPLE ∧
    (runFilter (initFilter r) samples).sum =
      (runFilter (initFilter r) samples).adcCounts.sum ∧
    (runFilter (initFilter r) samples).averageCounts =
      Int.fdiv (runFilter (initFilter r) samples).sum 128 := by
  obtain ⟨h1, _, h3, h4⟩ := filterInv_run (initFilter r) samples (filterInv_init r)
  exact ⟨h1, h3, h4⟩

/-- Settled-filter invariant for a constant input: every slot holds the
sample, the sum and the average match, and the cursor stays in range. -/
def ConstFilter (r : ℤ) (s : FilterState) : Prop :=
  s.adcCounts = List.replicate MAX_SAMPLE r ∧ s.sum = r * 128 ∧
  s.averageCounts = r ∧ s.index < MAX_SAMPLE

/-- Feeding the settled filter its own sample keeps it settled. -/
theorem constFilter_tick (r : ℤ) (s : FilterState) (h : ConstFilter r s) :
    ConstFilter r (filterTick s r) := by
  obtain ⟨hbuf, hsum, havg, hidx⟩ := h
  simp only [filterTick, havg, sub_self, Int.natAbs_zero, Nat.cast_zero]
  rw [if_neg (by decide)]
  refine ⟨?_, ?_, ?_, ?_⟩
  · show s.adcCounts.set s.index r = _
    rw [hbuf, List.set_replicate_self]
  · show s.sum - s.adcCounts.getD s.index 0 + r = r * 128
    rw [hbuf, getD_replicate r MAX_SAMPLE s.index hidx, hsum]
    ring
  · show Int.fdiv (s.sum - s.adcCounts.getD s.index 0 + r) 128 = r
    rw [hbuf, getD_replicate r MAX_SAMPLE s.index hidx, hsum]
    have hr : r * 128 - r + r = r * 128 := by ring
    rw [hr, Int.mul_fdiv_cancel _ (by norm_num)]
  · show (if s.index + 1 = MAX_SAMPLE then 0 else s.index + 1) < MAX_SAMPLE
    split <;> omega

/-- C7: after the filter is initialized with a first observed sample (all 128
buffer slots filled with it, sum = sample * 128, average = sample), feeding
the same constant sample on every subsequent tick leaves the average exactly
equal to that sample for any number of ticks; a constant sample can never
trigger the slope reset since its difference from the average is zero. -/
theorem filter_constant_convergence (r : ℤ) (n : ℕ) :
    (runFilter (initFilter r) (List.replicate n r)).averageCounts = r := by
  have base : ConstFilter r (initFilter r) :=
    ⟨rfl, rfl, rfl, show (0:ℕ) < MAX_SAMPLE by decide⟩
  have run : ∀ (m : ℕ) (s : FilterState), ConstFilter r s →
      ConstFilter r (runFilter s (List.replicate m r)) := by
    intro m
    induction m with
    | zero => intro s hs; exact hs
    | succ k ih =>
      intro s hs
      rw [List.replicate_succ, runFilter_cons]
      exact ih _ (constFilter_tick r s hs)
  exact (run n _ base).2.2.1

/-- C3 counterexample: from the freshly initialized filter holding average 0,
the sample 65536 differs from the average by 65536, far above SIGNAL_SLOPE,
yet the filter does not reset: the narrowing store of the difference into the
`int16` variable `diff` truncates 65536 to 0, the sliding-window branch runs,
and the reported average is 512, not the new sample. -/
theorem slope_reset_counterexample :
    SIGNAL_SLOPE < (((initFilter 0).averageCounts - 65536).natAbs : ℤ) ∧
    (filterTick (initFilter 0) 65536).averageCounts ≠ 65536 := by
  constructor <;> decide

/-- C3 (amended): the filter resets exactly when the int16-truncated absolute
difference between the current average and the new sample exceeds
SIGNAL_SLOPE = 1000; on that very tick every buffer slot holds the new sample,
`sum = result * 128`, the cursor is 0, and the reported average equals the new
sample exactly.  The difference is NOT computed in a width wide enough for the
full 20-bit range: it is truncated to 16 bits by the `int16 diff` store. -/
theorem slope_reset_amended (s : FilterState) (result : ℤ)
    (h : SIGNAL_SLOPE < toInt16 (((s.averageCounts - result).natAbs : ℤ))) :
    (filterTick s result).adcCounts = List.replicate MAX_SAMPLE result ∧
    (filterTick s result).sum = result * 128 ∧
    (filterTick s result).index = 0 ∧
    (filterTick s result).averageCounts = result := by
  simp only [filterTick]
  rw [if_pos h]
  exact ⟨rfl, rfl, rfl, rfl⟩

/-- Witness for the amended slope-reset theorem at a concrete input. -/
theorem slope_reset_amended_witness :
    SIGNAL_SLOPE < toInt16 ((((initFilter 0).averageCounts - 2000).natAbs : ℤ)) ∧
    (filterTick (initFilter 0) 2000).averageCounts = 2000 :=
  ⟨by decide, (slope_reset_amended (initFilter 0) 2000 (by decide)).2.2.2⟩

/-- C2 counterexample: an input of 41 mV does not quantize to step 0 (its
remainder 41 equals `NOTEPERFECT_STEP_SIZE_MV / 2 = 41`, so the code rounds
up to step 1). -/
theorem quantize_counterexample : notePerfectValue (41 : ℤ) ≠ 0 := by decide

/-- C2 (amended): with stepSizeMv = 83 the quantizer maps 0 mV to step 0,
41 mV to step 1 (the remainder 41 meets the round-up threshold 41), 42 mV to
step 1, 82 mV to step 1 and 5000 mV to step 60, following the rule
`stepIndex = mv / 83`, incremented by one when `mv mod 83 >= 41`. -/
theorem quantize_values_amended :
    notePerfectValue (0 : ℤ) = 0 ∧ notePerfectValue (41 : ℤ) = 1 ∧
    notePerfectValue (42 : ℤ) = 1 ∧ notePerfectValue (82 : ℤ) = 1 ∧
    notePerfectValue (5000 : ℤ) = 60 ∧
    ∀ mv : ℕ, mv < 4294967296 →
      notePerfectValue (mv : ℤ) = mv / 83 + (if 41 ≤ mv % 83 then 1 else 0) :=
  ⟨by decide, by decide, by decide, by decide, by decide, notePerfectValue_nat_eq⟩

/-- Witness for the amended quantizer rule at a concrete input. -/
theorem quantize_values_amended_witness :
    (100:ℕ) < 4294967296 ∧
    notePerfectValue ((100:ℕ) : ℤ) = 100 / 83 + (if 41 ≤ 100 % 83 then 1 else 0) :=
  ⟨by norm_num, quantize_values_amended.2.2.2.2.2 100 (by norm_num)⟩

/-- C6: every nonnegative filtered input at or below the maximum representable
5000 mV quantizes to a step index within the 61-entry table (index at most
60), and quantizing one unit above the maximum (5001 mV) still yields the last
valid index 60 (remainder 21 is below the round-up threshold), so the lookup
does not read past the last table entry. -/
theorem table_bounds_safe :
    (∀ mv : ℕ, mv ≤ 5000 → notePerfectValue (mv : ℤ) ≤ 60) ∧
    notePerfectValue (5001 : ℤ) = 60 ∧
    PWM_Lookup.length = 61 := by
  refine ⟨?_, by decide, by decide⟩
  intro mv h
  rw [notePerfectValue_nat_eq mv (by omega)]
  split <;> omega

/-- Witness for the table-bounds theorem at the maximum input. -/
theorem table_bounds_safe_witness :
    (5000:ℕ) ≤ 5000 ∧ notePerfectValue ((5000:ℕ) : ℤ) ≤ 60 :=
  ⟨le_rfl, table_bounds_safe.1 5000 le_rfl⟩

/-- C10 counterexample: a filtered value of -1 mV does not produce step 1.
The division is performed in unsigned 32-bit arithmetic (the step-size
constant is unsigned), so -1 converts to 4294967295 and the quantizer returns
4294967295 / 83 + 1 = 51746594. -/
theorem negative_quantize_counterexample :
    notePerfectValue (-1 : ℤ) ≠ 1 ∧ notePerfectValue (-1 : ℤ) = 51746594 := by
  constructor <;> decide

/-- C10 (amended): every negative int32 millivolt value is converted to
unsigned before the division, so it produces a step index far above 60 (never
step 1, not even for values in [-82, -1]); over the whole int32 range the
quantize-and-lookup step stays within the table exactly when
`0 <= milliVolts <= 5020`. -/
theorem quantize_bounds_amended :
    (∀ mv : ℤ, -2147483648 ≤ mv → mv < 0 → 60 < notePerfectValue mv) ∧
    (∀ mv : ℤ, -2147483648 ≤ mv → mv < 2147483648 →
      (notePerfectValue mv ≤ 60 ↔ 0 ≤ mv ∧ mv ≤ 5020)) := by
  constructor
  · intro mv h1 h2
    rw [notePerfectValue_eq]
    unfold toUInt32
    split <;> omega
  · intro mv h1 h2
    rw [notePerfectValue_eq]
    unfold toUInt32
    split <;> omega

/-- Witness for the amended quantizer-bounds theorem at concrete inputs. -/
theorem quantize_bounds_amended_witness :
    60 < notePerfectValue (-1 : ℤ) ∧ notePerfectValue (100 : ℤ) ≤ 60 :=
  ⟨quantize_bounds_amended.1 (-1) (by norm_num) (by norm_num),
   (quantize_bounds_amended.2 100 (by norm_num) (by norm_num)).mpr (by norm_num)⟩

/-- C4 counterexample: the table entry at index 2 is 167, not
`2 * NOTEPERFECT_STEP_SIZE_MV = 166`: the table is not exactly
`i * stepSizeMv`. -/
theorem pwm_lookup_counterexample :
    PWM_Lookup.getD 2 0 ≠ 2 * NOTEPERFECT_STEP_SIZE_MV := by decide

/-- C4 (amended): the table is strictly increasing, has exactly
`stepsPerVolt * maxVoltage + 1 = 61` entries, and `stepSizeMv = 83`; but the
entries are the nearest-integer values of `i * 5000 / 60` (equivalently
`(1000 * i + 6) / 12` in integer arithmetic), which differ from
`i * stepSizeMv` from index 2 on. -/
theorem pwm_lookup_amended :
    PWM_Lookup.length = NUMBER_NOTES_PER_VOLT * MAX_CONTROL_VOLTAGE + 1 ∧
    List.Pairwise (· < ·) PWM_Lookup ∧
    NOTEPERFECT_STEP_SIZE_MV = 83 ∧
    (∀ i : ℕ, i < 61 → PWM_Lookup.getD i 0 = (1000 * i + 6) / 12) :=
  ⟨by decide, by decide, by decide, by decide⟩

/-- Witness for the amended table-shape theorem at a concrete index. -/
theorem pwm_lookup_amended_witness :
    (2:ℕ) < 61 ∧ PWM_Lookup.getD 2 0 = (1000 * 2 + 6) / 12 :=
  ⟨by norm_num, pwm_lookup_amended.2.2.2 2 (by norm_num)⟩

/-- Bounds on the in-range table entries above step 0, used for the
correction-window analysis. -/
theorem PWM_Lookup_bounds :
    ∀ n : ℕ, n < 61 → 1 ≤ n →
      83 ≤ PWM_Lookup.getD n 0 ∧ PWM_Lookup.getD n 0 ≤ 5000 := by
  decide

/-- C1 counterexample: 10 mV quantizes to step 0, where the claim classifies
it as correction inactive (it lies inside [0, 20]); but the code computes the
lower bound `PWM_Lookup[0] - CORRECTION_WINDOW` in unsigned arithmetic, which
wraps to 4294967276, so the comparison reports correction ACTIVE. -/
theorem correction_window_counterexample :
    notePerfectValue (10 : ℤ) = 0 ∧ correctionActive (10 : ℤ) 0 = true := by
  constructor <;> decide

/-- C1 (amended): for step indices 1 through 60 the detector reports
correction active exactly when the filtered voltage lies outside the closed
interval `[representativeMv - 20, representativeMv + 20]`; at step 0, however,
the unsigned subtraction `0 - 20` wraps around, so every filtered voltage in
the valid range (in particular all of [0, 20]) is classified as correction
ACTIVE. -/
theorem correction_window_amended :
    (∀ mv : ℕ, mv < 4294967296 → ∀ stepIndex : ℕ, 1 ≤ stepIndex → stepIndex ≤ 60 →
      (correctionActive (mv : ℤ) stepIndex = true ↔
        (mv < PWM_Lookup.getD stepIndex 0 - CORRECTION_WINDOW ∨
         PWM_Lookup.getD stepIndex 0 + CORRECTION_WINDOW < mv))) ∧
    (∀ mv : ℕ, mv ≤ 5020 → correctionActive (mv : ℤ) 0 = true) := by
  constructor
  · intro mv hmv stepIndex h1 h60
    obtain ⟨hlo, hhi⟩ := PWM_Lookup_bounds stepIndex (by omega) h1
    simp only [correctionActive, CORRECTION_WINDOW, NOTEPERFECT_STEP_SIZE_MV,
      MAX_CONTROL_VOLTAGE, NUMBER_NOTE_PERFECT_STEPS, NUMBER_NOTES_PER_VOLT,
      toUInt32_natCast mv hmv, Bool.or_eq_true, decide_eq_true_eq]
    omega
  · intro mv hmv
    have h0 : PWM_Lookup.getD 0 0 = 0 := rfl
    simp only [correctionActive, CORRECTION_WINDOW, NOTEPERFECT_STEP_SIZE_MV,
      MAX_CONTROL_VOLTAGE, NUMBER_NOTE_PERFECT_STEPS, NUMBER_NOTES_PER_VOLT,
      toUInt32_natCast mv (by omega), h0, Bool.or_eq_true, decide_eq_true_eq]
    omega

/-- Witness for the amended correction-window theorem at concrete inputs. -/
theorem correction_window_amended_witness :
    correctionActive ((200:ℕ) : ℤ) 1 = true ∧ correctionActive ((15:ℕ) : ℤ) 0 = true :=
  ⟨(correction_window_amended.1 200 (by norm_num) 1 le_rfl (by norm_num)).mpr
      (Or.inr (by decide)),
   correction_window_amended.2 15 (by norm_num)⟩

/-- C9: whenever the correction test fires, the Blue-LED magnitude equals the
table value at `min(stepIndex, 10)` (it follows the step index, capped at the
fixed ceiling step 10); whenever the test does not fire, the magnitude is
zero (the Blue PWM is reset and stopped). -/
theorem blue_magnitude_correct (mv : ℤ) (stepIndex : ℕ) :
    (correctionActive mv stepIndex = true →
      blueMagnitude mv stepIndex = PWM_Lookup.getD (min stepIndex 10) 0) ∧
    (correctionActive mv stepIndex = false → blueMagnitude mv stepIndex = 0) := by
  constructor
  · intro h
    rcases le_or_lt stepIndex 10 with h10 | h10
    · simp [blueMagnitude, blueCompareValue, h, Nat.min_eq_left h10, Nat.not_lt.mpr h10]
    · simp [blueMagnitude, blueCompareValue, h, h10, Nat.min_eq_right (Nat.le_of_lt h10)]
  · intro h
    simp [blueMagnitude, h]

/-- Witness for the Blue-LED magnitude theorem at concrete inputs. -/
theorem blue_magnitude_correct_witness :
    correctionActive (200 : ℤ) 1 = true ∧
    blueMagnitude (200 : ℤ) 1 = PWM_Lookup.getD (min 1 10) 0 ∧
    correctionActive (83 : ℤ) 1 = false ∧ blueMagnitude (83 : ℤ) 1 = 0 :=
  ⟨by decide, (blue_magnitude_correct 200 1).1 (by decide),
   by decide, (blue_magnitude_correct 83 1).2 (by decide)⟩

/-- C8: the primary quantized outputs (main PWM compare, active-channel LED
compare, LCD step and DAC fields) are written exactly when the current step
index differs from the previously emitted one, which is then updated; when the
step index is unchanged those outputs are untouched; the millivolt telemetry
and the correction evaluation run unconditionally on every tick. -/
theorem output_change_detection (o : OutputState) (ch : ℕ) (mv : ℤ) (stepIndex : ℕ) :
    (stepIndex = o.previousNotePerfectValue →
      ((outputTick o ch mv stepIndex).pwmCompare = o.pwmCompare ∧
       (outputTick o ch mv stepIndex).redCompare = o.redCompare ∧
       (outputTick o ch mv stepIndex).greenCompare = o.greenCompare ∧
       (outputTick o ch mv stepIndex).lcdDacDisplay = o.lcdDacDisplay ∧
       (outputTick o ch mv stepIndex).lcdStepDisplay = o.lcdStepDisplay ∧
       (outputTick o ch mv stepIndex).previousNotePerfectValue =
         o.previousNotePerfectValue)) ∧
    (stepIndex ≠ o.previousNotePerfectValue →
      ((outputTick o ch mv stepIndex).pwmCompare = PWM_Lookup.getD stepIndex 0 ∧
       (outputTick o ch mv stepIndex).lcdDacDisplay = PWM_Lookup.getD stepIndex 0 ∧
       (outputTick o ch mv stepIndex).lcdStepDisplay = stepIndex ∧
       (outputTick o ch mv stepIndex).previousNotePerfectValue = stepIndex ∧
       (ch = IN_A → (outputTick o ch mv stepIndex).redCompare =
         (if stepIndex = 0 then PWM_Lookup.getD 1 0 else PWM_Lookup.getD stepIndex 0)) ∧
       (ch = IN_B → (outputTick o ch mv stepIndex).greenCompare =
         (if stepIndex = 0 then PWM_Lookup.getD 1 0 else PWM_Lookup.getD stepIndex 0)))) ∧
    (outputTick o ch mv stepIndex).lcdMvDisplay = mv ∧
    (outputTick o ch mv stepIndex).blueRunning = correctionActive mv stepIndex := by
  by_cases hc : correctionActive mv stepIndex = true <;>
    by_cases hs : stepIndex = o.previousNotePerfectValue <;>
    simp_all [outputTick]

/-- Witness for the output change-detection theorem at a concrete state. -/
theorem output_change_detection_witness :
    (1:ℕ) ≠ initOutput.previousNotePerfectValue ∧
    (outputTick initOutput IN_A 100 1).pwmCompare = PWM_Lookup.getD 1 0 ∧
    (outputTick initOutput IN_A 100 1).lcdMvDisplay = 100 :=
  ⟨by decide,
   ((output_change_detection initOutput IN_A 100 1).2.1 (by decide)).1,
   (output_change_detection initOutput IN_A 100 1).2.2.1⟩
